import Mathlib

/-!
Verification development for the SnapExtract repository: a browser utility
that sends an image to an external inference endpoint and displays the
extracted phone numbers.

The repository has three source files:
- src/types.ts: the data model (ExtractedNumber, ExtractionResponse, AppStatus);
- a service file (two revisions concatenated) exporting extractNumbersFromImage:
  credential validation, MIME extraction from the data URL, one request to the
  provider, response-text parsing, and substring-based error classification;
- src/App.tsx (two revisions concatenated): the interaction controller, a React
  component with status, results, error, copiedIndex and previewUrl state.

The embedding below translates each of these pieces into executable Lean
definitions.  JavaScript strings are modelled by String (viewed as List Char),
JavaScript "string or undefined" values by Option String, thrown errors by
Except, and the runtime value produced by JSON.parse by an inductive Json type
(an object is a list of key/value pairs, so presence and absence of a property
are distinguished).  Where the revisions differ in behaviour, both are
modelled and named with the suffixes _v1 (first revision in the file) and _v2
(second revision).
-/

namespace SnapExtract

/-- Data model from src/types.ts: one detected phone number with its inferred
country. -/
structure ExtractedNumber where
  number : String
  country : String
deriving DecidableEq, Repr

/-- Data model from src/types.ts: the full result of one extraction call.  The
TypeScript interface declares `summary : string`, but the adapter builds the
value with a type cast from parsed JSON, so at runtime the summary property can
be absent; `Option String` records presence (`some`) or absence (`none`) of the
property on the runtime value. -/
structure ExtractionResponse where
  numbers : List ExtractedNumber
  summary : Option String
deriving DecidableEq, Repr

/-- Data model from src/types.ts: `type AppStatus = 'idle' | 'loading' |
'success' | 'error'`. -/
inductive AppStatus where
  | idle
  | loading
  | success
  | error
deriving DecidableEq, Repr

/-! ## JavaScript primitives used by the source

These model the exact JavaScript operations the code applies to strings:
`x || d` on string-or-undefined values, `String.prototype.trim` (modelled on
ASCII whitespace), `String.prototype.includes`, and `String.prototype.split`.
-/

/-- Model of the JavaScript expression `x || d` where `x` is a string or
undefined: undefined and the empty string are falsy and select the default. -/
def jsOrStr (x : Option String) (d : String) : String :=
  match x with
  | none => d
  | some "" => d
  | some s => s

/-- Model of JavaScript `String.prototype.trim` (on ASCII whitespace),
written character-wise so that it evaluates inside the kernel. -/
def jsTrim (s : String) : String :=
  String.mk (((s.data.dropWhile Char.isWhitespace).reverse.dropWhile Char.isWhitespace).reverse)

/-- Character-list version of substring containment: `containsSub needle hay`
is true when `needle` occurs contiguously inside `hay`. -/
def containsSub (needle : List Char) : List Char → Bool
  | [] => needle.isEmpty
  | c :: t => needle.isPrefixOf (c :: t) || containsSub needle t

/-- Model of JavaScript `s.includes(pat)`. -/
def strIncludes (s pat : String) : Bool :=
  containsSub pat.data s.data

/-- Model of JavaScript `s.split(',')`: splits a character list at every
comma, keeping empty pieces. -/
def splitComma : List Char → List (List Char)
  | [] => [[]]
  | c :: rest =>
    let r := splitComma rest
    if c == ',' then [] :: r
    else
      match r with
      | h :: t => (c :: h) :: t
      | [] => [[c]]

/-! ## JSON values and a model of JSON.parse

The adapter calls `JSON.parse` on the provider text and on the literal
`'{"numbers":[]}'`.  `Json` is the resulting runtime value; `JSON_parse` is an
executable recursive-descent parser modelling `JSON.parse` on the fragment of
JSON this code can meet (strings with the simple escapes, integer numbers,
arrays, objects, booleans and null; `\u` escapes and fractional numbers are
outside the model).  A failed parse models a thrown SyntaxError, which the
source catches in the same catch block as provider errors.
-/

/-- A JavaScript value produced by JSON.parse.  An object is its list of
properties in order, so a missing property is observable. -/
inductive Json where
  | null
  | bool (b : Bool)
  | num (n : Int)
  | str (s : String)
  | arr (xs : List Json)
  | obj (fields : List (String × Json))

/-- Drop leading JSON whitespace. -/
def skipWs (cs : List Char) : List Char :=
  cs.dropWhile (fun c => c == ' ' || c == '\n' || c == '\t' || c == '\r')

/-- JSON string escapes (the simple ones): n, t, r, b and f denote the usual
control characters, and a quote, backslash or slash denotes itself. -/
def escapeChar : Char → Option Char
  | 'n' => some '\n'
  | 't' => some '\t'
  | 'r' => some '\r'
  | 'b' => some (Char.ofNat 8)
  | 'f' => some (Char.ofNat 12)
  | '"' => some '"'
  | '\\' => some '\\'
  | '/' => some '/'
  | _ => none

/-- Parse the body of a JSON string after the opening quote; returns the
decoded characters and the rest of the input after the closing quote. -/
def parseStrChars : List Char → Option (List Char × List Char)
  | [] => none
  | '"' :: rest => some ([], rest)
  | '\\' :: e :: rest =>
    match escapeChar e, parseStrChars rest with
    | some c, some (cs, r) => some (c :: cs, r)
    | _, _ => none
  | c :: rest =>
    match parseStrChars rest with
    | some (cs, r) => some (c :: cs, r)
    | none => none

/-- Accumulate decimal digits into a natural number. -/
def digitsToNat (ds : List Char) : Nat :=
  ds.foldl (fun n c => n * 10 + (c.toNat - 48)) 0

/-- Parse a JSON integer (optional minus sign followed by digits). -/
def parseNum (cs : List Char) : Option (Json × List Char) :=
  match cs with
  | '-' :: rest =>
    let ds := rest.takeWhile Char.isDigit
    if ds = [] then none else some (Json.num (-(digitsToNat ds : Int)), rest.drop ds.length)
  | _ =>
    let ds := cs.takeWhile Char.isDigit
    if ds = [] then none else some (Json.num (digitsToNat ds), cs.drop ds.length)

mutual

/-- Parse one JSON value; the fuel bounds the nesting depth. -/
def parseValue : Nat → List Char → Option (Json × List Char)
  | 0, _ => none
  | Nat.succ fuel, cs =>
    match skipWs cs with
    | '"' :: rest =>
      match parseStrChars rest with
      | some (s, r) => some (Json.str (String.mk s), r)
      | none => none
    | '\x7b' :: rest =>
      match skipWs rest with
      | '\x7d' :: r2 => some (Json.obj [], r2)
      | _ =>
        match parseMembers fuel rest with
        | some (fs, r) => some (Json.obj fs, r)
        | none => none
    | '[' :: rest =>
      match skipWs rest with
      | ']' :: r2 => some (Json.arr [], r2)
      | _ =>
        match parseElems fuel rest with
        | some (xs, r) => some (Json.arr xs, r)
        | none => none
    | 't' :: 'r' :: 'u' :: 'e' :: rest => some (Json.bool true, rest)
    | 'f' :: 'a' :: 'l' :: 's' :: 'e' :: rest => some (Json.bool false, rest)
    | 'n' :: 'u' :: 'l' :: 'l' :: rest => some (Json.null, rest)
    | other => parseNum other

/-- Parse the members of a JSON object up to and including the closing brace. -/
def parseMembers : Nat → List Char → Option (List (String × Json) × List Char)
  | 0, _ => none
  | Nat.succ fuel, cs =>
    match skipWs cs with
    | '"' :: rest =>
      match parseStrChars rest with
      | none => none
      | some (key, r1) =>
        match skipWs r1 with
        | ':' :: r2 =>
          match parseValue fuel r2 with
          | none => none
          | some (v, r3) =>
            match skipWs r3 with
            | ',' :: r4 =>
              match parseMembers fuel r4 with
              | some (fs, r5) => some ((String.mk key, v) :: fs, r5)
              | none => none
            | '\x7d' :: r4 => some ([(String.mk key, v)], r4)
            | _ => none
        | _ => none
    | _ => none

/-- Parse the elements of a JSON array up to and including the closing bracket. -/
def parseElems : Nat → List Char → Option (List Json × List Char)
  | 0, _ => none
  | Nat.succ fuel, cs =>
    match parseValue fuel cs with
    | none => none
    | some (v, r) =>
      match skipWs r with
      | ',' :: r2 =>
        match parseElems fuel r2 with
        | some (xs, r3) => some (v :: xs, r3)
        | none => none
      | ']' :: r2 => some ([v], r2)
      | _ => none

end

/-- Model of `JSON.parse`: parse one value and require only whitespace after
it; `none` models a thrown SyntaxError. -/
def JSON_parse (s : String) : Option Json :=
  match parseValue (s.data.length + 1) s.data with
  | some (j, r) => if skipWs r = [] then some j else none
  | none => none

/-- Model of JavaScript property access `v[key]` on a parsed value: `none` is
undefined (absent property or non-object receiver). -/
def lookupField : List (String × Json) → String → Option Json
  | [], _ => none
  | (k, v) :: fs, key => if k == key then some v else lookupField fs key

/-- Property access on a Json value. -/
def jsGet : Json → String → Option Json
  | Json.obj fs, key => lookupField fs key
  | _, _ => none

/-- JavaScript truthiness of a property-access result: undefined, null, false,
0 and the empty string are falsy; every array and object is truthy. -/
def jsTruthy : Option Json → Bool
  | none => false
  | some Json.null => false
  | some (Json.bool b) => b
  | some (Json.num n) => n != 0
  | some (Json.str s) => s != ""
  | some (Json.arr _) => true
  | some (Json.obj _) => true

/-! ## Serialization under the declared response schema

The service declares `responseSchema` with a single required property
`numbers`, an array of objects with required string properties `number` and
`country` (`summary` is not part of the schema).  `encodeResponse` serializes
an ExtractionResponse to the JSON value this schema admits; `decodeResponse`
reads such a value back the way the code does (property access on the parsed
object). -/

/-- Serialize one entry as the schema object with properties number and
country. -/
def encodeEntry (e : ExtractedNumber) : Json :=
  Json.obj [("number", Json.str e.number), ("country", Json.str e.country)]

/-- Serialize a response under the declared schema: a single numbers property
holding the array of entries in order. -/
def encodeResponse (r : ExtractionResponse) : Json :=
  Json.obj [("numbers", Json.arr (r.numbers.map encodeEntry))]

/-- Read one entry back from a parsed JSON value. -/
def decodeEntry (j : Json) : Option ExtractedNumber :=
  match jsGet j "number", jsGet j "country" with
  | some (Json.str n), some (Json.str c) => some ⟨n, c⟩
  | _, _ => none

/-- Read a list of entries back, failing if any entry is malformed. -/
def decodeEntries : List Json → Option (List ExtractedNumber)
  | [] => some []
  | j :: js =>
    match decodeEntry j, decodeEntries js with
    | some e, some es => some (e :: es)
    | _, _ => none

/-- Read a full response back from a parsed JSON value: the numbers property
must be an array of well-formed entries; the summary property is kept when
present as a string and recorded absent otherwise. -/
def decodeResponse (j : Json) : Option ExtractionResponse :=
  match jsGet j "numbers" with
  | some (Json.arr xs) =>
    match decodeEntries xs with
    | some es =>
      some { numbers := es,
             summary := match jsGet j "summary" with
                        | some (Json.str s) => some s
                        | _ => none }
    | none => none
  | _ => none

/-! ## The request adapter (service file, both revisions)

`extractNumbersFromImage(base64Image)` reads `process.env.API_KEY`, validates
it, computes the MIME type and payload from the data URL, issues the provider
call, parses the response text, and classifies errors by substring matching on
the error message.  The provider interaction is the only external effect; it
is supplied as an explicit `ProviderOutcome` argument, and the returned
`AdapterRun` records whether the request was issued and with which MIME type
and payload, so that "no network call is made" is a statement about the model.
-/

/-- The credential check shared by both revisions:
`!apiKey || apiKey === 'undefined' || apiKey.trim() === ''`. -/
def apiKeyMissing : Option String → Bool
  | none => true
  | some k => k == "" || k == "undefined" || jsTrim k == ""

/-- The characters of the literal `data:`. -/
def dataUrlPrefix : List Char := ['d', 'a', 't', 'a', ':']

/-- The characters of the literal `data` (without the colon). -/
def dataWord : List Char := ['d', 'a', 't', 'a']

/-- One attempted match of the regular expression `data:([^;]+);` at the head
of the input: the five characters `data:`, then a nonempty run of
non-semicolon characters (the capture), then a semicolon. -/
def matchMimeAt (cs : List Char) : Option (List Char) :=
  if dataUrlPrefix.isPrefixOf cs then
    let rest := cs.drop 5
    let run := rest.takeWhile (fun c => c != ';')
    if run = [] then none
    else if rest.drop run.length = [] then none
    else some run
  else none

/-- Leftmost match of `data:([^;]+);`, scanning start positions left to right
as the JavaScript regular-expression engine does. -/
def findMime : List Char → Option (List Char)
  | [] => none
  | c :: cs =>
    match matchMimeAt (c :: cs) with
    | some m => some m
    | none => findMime cs

/-- The MIME type the adapter uses:
`base64Image.match(/data:([^;]+);/)?.[1] || 'image/png'`. -/
def getMimeType (s : String) : String :=
  match findMime s.data with
  | some m => String.mk m
  | none => "image/png"

/-- The payload the adapter sends:
`base64Image.split(',')[1] || base64Image`. -/
def base64Payload (s : String) : String :=
  jsOrStr (((splitComma s.data).get? 1).map String.mk) s

/-- The message thrown by the second revision when the credential check
fails. -/
def setupRequiredMsg : String :=
  "SETUP_REQUIRED: API Key is missing. Please create a key in AI Studio \x27API keys\x27 tab."

/-- Error classification of the first revision (its catch block): 401,
API_KEY_INVALID or `not found` first, then 403, then 429, then the generic
message. -/
def classifyError_v1 (msg : String) : String :=
  if strIncludes msg "401" || strIncludes msg "API_KEY_INVALID" || strIncludes msg "not found" then
    "Invalid API Key. Please generate a new key in AI Studio \x27API keys\x27 tab."
  else if strIncludes msg "403" then
    "Permission denied. Check if your API key has access to Gemini Flash."
  else if strIncludes msg "429" then
    "Rate limit reached. Please wait a few seconds."
  else
    "Could not process image. Ensure it\x27s clear and contains numbers."

/-- Error classification of the second revision (its catch block): 401 or
API_KEY_INVALID first, then 429, then `model not found` or 404, then the
generic message. -/
def classifyError_v2 (msg : String) : String :=
  if strIncludes msg "401" || strIncludes msg "API_KEY_INVALID" then
    "INVALID_KEY: Your API key is invalid. Please generate a new one."
  else if strIncludes msg "429" then
    "RATE_LIMIT: Too many requests. Wait a moment."
  else if strIncludes msg "model not found" || strIncludes msg "404" then
    "MODEL_ERROR: The AI model is currently unavailable in your region."
  else
    "Analysis failed. Make sure the image is clear and try again."

/-- The default text substituted for an empty or missing provider response:
the literal `'{"numbers":[]}'`. -/
def jsonEmptyDefault : String := "\x7b\"numbers\":[]\x7d"

/-- Model of a thrown SyntaxError message from JSON.parse; the source only
ever matches substrings such as 401 and 429 against it, which it does not
contain. -/
def parseErrorMsg : String := "Unexpected token in JSON"

/-- Success-path response handling of the second revision:
`const textOutput = response.text || '{"numbers":[]}';
return JSON.parse(textOutput.trim()) as ExtractionResponse;`.
The returned value is exactly the parsed JSON value (the cast has no runtime
effect); a parse failure is a thrown error. -/
def handleText_v2 (text : Option String) : Except String Json :=
  match JSON_parse (jsTrim (jsOrStr text jsonEmptyDefault)) with
  | some j => Except.ok j
  | none => Except.error parseErrorMsg

/-- Success-path response handling of the first revision: as in the second
revision, but with a guard `if (!parsed.numbers) return { numbers: [], summary: "" };`
that fires only when the numbers property is falsy (an empty array is truthy,
so the guard does not fire for it). -/
def handleText_v1 (text : Option String) : Except String Json :=
  match JSON_parse (jsTrim (jsOrStr text jsonEmptyDefault)) with
  | some j =>
    if jsTruthy (jsGet j "numbers") then Except.ok j
    else Except.ok (Json.obj [("numbers", Json.arr []), ("summary", Json.str "")])
  | none => Except.error parseErrorMsg

/-- The outcome of the single provider call: a response whose `text` property
is a string or undefined, or a thrown error whose `message` property is a
string or undefined. -/
inductive ProviderOutcome where
  | success (text : Option String)
  | failure (message : Option String)

/-- One run of the adapter: whether the external request was issued, and if so
with which MIME type and payload, and the returned value or thrown message. -/
structure AdapterRun where
  networkCalled : Bool
  requestMime : Option String
  requestData : Option String
  result : Except String Json

/-- The adapter `extractNumbersFromImage` (second revision): validate the
credential, compute MIME type and payload, issue the call, parse the response
text, classify failures.  The first revision differs only in its message
strings, its response-handling guard (`handleText_v1`) and its classification
(`classifyError_v1`); its credential check and MIME extraction are identical. -/
def extractNumbersFromImage (apiKey : Option String) (base64Image : String)
    (provider : ProviderOutcome) : AdapterRun :=
  if apiKeyMissing apiKey then
    { networkCalled := false, requestMime := none, requestData := none,
      result := Except.error setupRequiredMsg }
  else
    let mimeType := getMimeType base64Image
    let base64Data := base64Payload base64Image
    match provider with
    | ProviderOutcome.success text =>
      match handleText_v2 text with
      | Except.ok j =>
        { networkCalled := true, requestMime := some mimeType,
          requestData := some base64Data, result := Except.ok j }
      | Except.error m =>
        { networkCalled := true, requestMime := some mimeType,
          requestData := some base64Data, result := Except.error (classifyError_v2 m) }
    | ProviderOutcome.failure em =>
      { networkCalled := true, requestMime := some mimeType,
        requestData := some base64Data,
        result := Except.error (classifyError_v2 (jsOrStr em "")) }

/-! ## The interaction controller (src/App.tsx, first revision)

The component state is `status`, `results`, `error`, `copiedIndex` and
`previewUrl`.  `processImage` is asynchronous: its synchronous head runs at
the capture action (preview set, status loading, error and results cleared)
and its continuation runs when the adapter promise settles; in between, other
events (in particular `resetApp`) can run.  The system state therefore pairs
the component state with the number of extraction calls currently in flight,
and `step` is the event semantics. -/

/-- The component state of App. -/
structure AppState where
  status : AppStatus
  results : Option ExtractionResponse
  error : Option String
  copiedIndex : Option Nat
  previewUrl : Option String
deriving DecidableEq, Repr

/-- The advisory message set on a successful extraction with no numbers. -/
def noNumbersMsg : String := "No numbers detected. Please try a clearer shot."

/-- The message set when the clipboard holds no image. -/
def clipboardNoImageMsg : String := "Clipboard doesn\x27t have an image. Copy an image first!"

/-- The message set when clipboard access is denied. -/
def clipboardDeniedMsg : String :=
  "Clipboard access denied. Please use Ctrl+V or click \x27Choose File\x27."

/-- The synchronous head of `processImage`: set the preview, move to loading,
clear error and results. -/
def processImageStart (a : AppState) (img : String) : AppState :=
  { a with previewUrl := some img, status := AppStatus.loading,
           error := none, results := none }

/-- The continuation of `processImage` when the adapter promise settles: on
success store the results, move to success, and set the advisory message when
the number list is empty; on failure store the message and move to error. -/
def processImageComplete (a : AppState) : Except String ExtractionResponse → AppState
  | Except.ok data =>
    { a with results := some data, status := AppStatus.success,
             error := if data.numbers.isEmpty then some noNumbersMsg else a.error }
  | Except.error msg =>
    { a with error := some msg, status := AppStatus.error }

/-- `resetApp`: clear results, preview and error and return to idle
(`copiedIndex` is not touched). -/
def resetApp (a : AppState) : AppState :=
  { a with results := none, previewUrl := none, error := none,
           status := AppStatus.idle }

/-- `copyToClipboard(text, index)`: set the shared copied marker to the index
and schedule a timeout of 1000 milliseconds that clears it; the returned
number is the scheduled delay. -/
def copyToClipboard (a : AppState) (text : String) (index : Nat) : AppState × Nat :=
  ({ a with copiedIndex := some index }, 1000)

/-- The timeout callback scheduled by `copyToClipboard`: clear the shared
copied marker. -/
def copyTimerFire (a : AppState) : AppState :=
  { a with copiedIndex := none }

/-- What `navigator.clipboard.read()` produced for `handleClipboardAction`:
an image item, no image item, or a thrown access error. -/
inductive ClipboardResult where
  | image (img : String)
  | noImage
  | denied

/-- The system state: the component state plus the number of extraction calls
currently in flight (issued and not yet settled). -/
structure SysState where
  app : AppState
  inflight : Nat
deriving DecidableEq, Repr

/-- `handleClipboardAction`: ignored while loading; otherwise clear the error
and, if the clipboard holds an image, start `processImage` (a new call is in
flight); with no image or on denial set the respective message. -/
def handleClipboardAction (s : SysState) (r : ClipboardResult) : SysState :=
  if s.app.status = AppStatus.loading then s
  else
    match r with
    | ClipboardResult.image img =>
      { app := processImageStart { s.app with error := none } img,
        inflight := s.inflight + 1 }
    | ClipboardResult.noImage =>
      { s with app := { s.app with error := some clipboardNoImageMsg } }
    | ClipboardResult.denied =>
      { s with app := { s.app with error := some clipboardDeniedMsg } }

/-- `handlePaste`: the window paste listener.  It has no status guard; if the
event carries an image it always starts `processImage`. -/
def handlePaste (s : SysState) (img : Option String) : SysState :=
  match img with
  | some i => { app := processImageStart s.app i, inflight := s.inflight + 1 }
  | none => s

/-- File selection: `openFileSelector` returns early while loading, otherwise
the chosen file reaches `processImage` through `handleFileChange`. -/
def handleFileSelect (s : SysState) (img : String) : SysState :=
  if s.app.status = AppStatus.loading then s
  else { app := processImageStart s.app img, inflight := s.inflight + 1 }

/-- Settling of one in-flight adapter call: the `processImage` continuation
runs unconditionally on the current component state. -/
def adapterArrive (s : SysState) (outcome : Except String ExtractionResponse) : SysState :=
  if s.inflight = 0 then s
  else { app := processImageComplete s.app outcome, inflight := s.inflight - 1 }

/-- The user-interface events driving the controller. -/
inductive Event where
  | captureFile (img : String)
  | captureClipboard (r : ClipboardResult)
  | pasteEvent (img : Option String)
  | adapterReturn (outcome : Except String ExtractionResponse)
  | reset
  | copy (text : String) (idx : Nat)
  | copyTimer

/-- The event semantics of the controller. -/
def step (s : SysState) : Event → SysState
  | Event.captureFile img => handleFileSelect s img
  | Event.captureClipboard r => handleClipboardAction s r
  | Event.pasteEvent img => handlePaste s img
  | Event.adapterReturn o => adapterArrive s o
  | Event.reset => { s with app := resetApp s.app }
  | Event.copy t i => { s with app := (copyToClipboard s.app t i).1 }
  | Event.copyTimer => { s with app := copyTimerFire s.app }

/-- The initial state: idle, nothing displayed, no call in flight. -/
def initState : SysState :=
  { app := { status := AppStatus.idle, results := none, error := none,
             copiedIndex := none, previewUrl := none },
    inflight := 0 }

/-- Run a sequence of events from the initial state. -/
def run (es : List Event) : SysState :=
  es.foldl step initState

/-! ## Claims about the adapter's credential validation (C2, C10) -/

/-- Claim C2: for every credential value that is missing, empty, or consists
only of whitespace, the adapter extractNumbersFromImage fails immediately with
the setup-required error and performs no network call (the external request is
never issued). -/
theorem blank_credential_fails_without_network (key : Option String) (img : String)
    (p : ProviderOutcome) (h : key = none ∨ ∃ k, key = some k ∧ jsTrim k = "") :
    (extractNumbersFromImage key img p).networkCalled = false ∧
    (extractNumbersFromImage key img p).result = Except.error setupRequiredMsg := by
  have hk : apiKeyMissing key = true := by
    rcases h with rfl | ⟨k, rfl, hk⟩
    · rfl
    · simp [apiKeyMissing, hk]
  simp [extractNumbersFromImage, hk]

/-- Witness for claim C2 at the whitespace-only credential consisting of one
space. -/
theorem blank_credential_fails_without_network_witness :
    ((some " " : Option String) = none ∨ ∃ k, (some " " : Option String) = some k ∧ jsTrim k = "") ∧
    (extractNumbersFromImage (some " ") "data:image/png;base64,AAA"
        (ProviderOutcome.success none)).networkCalled = false ∧
    (extractNumbersFromImage (some " ") "data:image/png;base64,AAA"
        (ProviderOutcome.success none)).result = Except.error setupRequiredMsg := by
  have h : (some " " : Option String) = none ∨
      ∃ k, (some " " : Option String) = some k ∧ jsTrim k = "" :=
    Or.inr ⟨" ", rfl, by decide⟩
  exact ⟨h,
    (blank_credential_fails_without_network (some " ") "data:image/png;base64,AAA"
      (ProviderOutcome.success none) h).1,
    (blank_credential_fails_without_network (some " ") "data:image/png;base64,AAA"
      (ProviderOutcome.success none) h).2⟩

/-- Claim C10: a credential equal to the literal string undefined is treated
exactly like a missing credential: the adapter run is identical to the run
with no credential, it throws the setup-required error and issues no network
call. -/
theorem undefined_literal_like_missing (img : String) (p : ProviderOutcome) :
    extractNumbersFromImage (some "undefined") img p = extractNumbersFromImage none img p ∧
    (extractNumbersFromImage (some "undefined") img p).networkCalled = false ∧
    (extractNumbersFromImage (some "undefined") img p).result = Except.error setupRequiredMsg := by
  have h1 : apiKeyMissing (some "undefined") = true := by decide
  simp [extractNumbersFromImage, h1, apiKeyMissing]

/-! ## Claims about the error classification (C4) -/

/-- Counterexample for claim C4: the message containing both an invalid-key
indicator and the rate-limit indicator 429 is classified as the invalid-key
error by both revisions, not as the rate-limit error, although it contains a
rate-limit indicator. -/
theorem rate_limit_not_dominant :
    strIncludes "401 429" "429" = true ∧
    classifyError_v2 "401 429" = "INVALID_KEY: Your API key is invalid. Please generate a new one." ∧
    classifyError_v2 "401 429" ≠ "RATE_LIMIT: Too many requests. Wait a moment." ∧
    classifyError_v1 "401 429" = "Invalid API Key. Please generate a new key in AI Studio \x27API keys\x27 tab." := by
  exact ⟨by decide, by decide, by decide, by decide⟩

/-- Claim C4 as amended: a provider error message containing the rate-limit
indicator 429 is classified as the rate-limit error provided no
earlier-checked indicator matches: for the second revision no 401 and no
API_KEY_INVALID, and for the first revision additionally no `not found` and no
403 (the checks are ordered, so an earlier match takes precedence over the
rate-limit indicator). -/
theorem rate_limit_classification_amended (msg : String)
    (h429 : strIncludes msg "429" = true)
    (h401 : strIncludes msg "401" = false)
    (hinv : strIncludes msg "API_KEY_INVALID" = false) :
    classifyError_v2 msg = "RATE_LIMIT: Too many requests. Wait a moment." ∧
    (strIncludes msg "not found" = false → strIncludes msg "403" = false →
      classifyError_v1 msg = "Rate limit reached. Please wait a few seconds.") := by
  constructor
  · simp [classifyError_v2, h401, hinv, h429]
  · intro hnf h403
    simp [classifyError_v1, h401, hinv, hnf, h403, h429]

/-- Witness for the amended claim C4 at a concrete rate-limited message. -/
theorem rate_limit_classification_amended_witness :
    strIncludes "HTTP 429" "429" = true ∧
    strIncludes "HTTP 429" "401" = false ∧
    strIncludes "HTTP 429" "API_KEY_INVALID" = false ∧
    classifyError_v2 "HTTP 429" = "RATE_LIMIT: Too many requests. Wait a moment." ∧
    classifyError_v1 "HTTP 429" = "Rate limit reached. Please wait a few seconds." := by
  refine ⟨by decide, by decide, by decide, ?_, ?_⟩
  · exact (rate_limit_classification_amended "HTTP 429" (by decide) (by decide) (by decide)).1
  · exact (rate_limit_classification_amended "HTTP 429" (by decide) (by decide) (by decide)).2
      (by decide) (by decide)

/-! ## Claims about the success-path response handling (C5) -/

/-- Counterexample for claim C5: with a missing response text the adapter
returns the parsed default object, which has a numbers property and no
summary property at all; it is not the claimed value whose summary property is
present and equal to the empty string. -/
theorem empty_text_result_lacks_summary :
    handleText_v2 none = Except.ok (Json.obj [("numbers", Json.arr [])]) ∧
    jsGet (Json.obj [("numbers", Json.arr [])]) "summary" = none ∧
    Json.obj [("numbers", Json.arr [])] ≠
      Json.obj [("numbers", Json.arr []), ("summary", Json.str "")] := by
  refine ⟨rfl, rfl, ?_⟩
  intro h
  injection h with hl
  simp at hl

/-- Claim C5 as amended: for a successful provider response whose text output
is empty or missing, both revisions of the adapter return, without failing,
the object whose numbers property is the empty array; the returned object has
no summary property (the summary property is absent, not the empty string). -/
theorem empty_text_returns_empty_numbers (t : Option String)
    (h : t = none ∨ t = some "") :
    handleText_v2 t = Except.ok (Json.obj [("numbers", Json.arr [])]) ∧
    handleText_v1 t = Except.ok (Json.obj [("numbers", Json.arr [])]) ∧
    jsGet (Json.obj [("numbers", Json.arr [])]) "summary" = none := by
  rcases h with rfl | rfl <;> exact ⟨rfl, rfl, rfl⟩

/-- Witness for the amended claim C5 at a missing response text. -/
theorem empty_text_returns_empty_numbers_witness :
    ((none : Option String) = none ∨ (none : Option String) = some "") ∧
    handleText_v2 none = Except.ok (Json.obj [("numbers", Json.arr [])]) := by
  exact ⟨Or.inl rfl, (empty_text_returns_empty_numbers none (Or.inl rfl)).1⟩

/-! ## Claims about the controller (C1, C3, C7, C8) -/

/-- Claim C1 (demonstrating the missing guard): evaluating the controller on
the failing trace.  A paste starts an extraction call (one call in flight);
the explicit reset returns the display to idle with no results while the call
is still in flight; when the stale response then arrives, the continuation of
processImage runs unconditionally and sets the displayed results and moves the
status to success, resurrecting the discarded results instead of ignoring the
stale response. -/
theorem stale_response_resurrects_results :
    (run [Event.pasteEvent (some "data:image/png;base64,AAA"), Event.reset]).app.status
      = AppStatus.idle ∧
    (run [Event.pasteEvent (some "data:image/png;base64,AAA"), Event.reset]).app.results
      = none ∧
    (run [Event.pasteEvent (some "data:image/png;base64,AAA"), Event.reset]).inflight = 1 ∧
    (run [Event.pasteEvent (some "data:image/png;base64,AAA"), Event.reset,
          Event.adapterReturn (Except.ok ⟨[⟨"+1 555-0100", "USA"⟩], none⟩)]).app.status
      = AppStatus.success ∧
    (run [Event.pasteEvent (some "data:image/png;base64,AAA"), Event.reset,
          Event.adapterReturn (Except.ok ⟨[⟨"+1 555-0100", "USA"⟩], none⟩)]).app.results
      = some ⟨[⟨"+1 555-0100", "USA"⟩], none⟩ := by
  exact ⟨rfl, rfl, rfl, rfl, rfl⟩

/-- Counterexample for claim C3: while the controller is loading, a paste
event carrying an image is not ignored: it starts a second extraction call, so
two calls are in flight. -/
theorem paste_while_loading_starts_call :
    (run [Event.pasteEvent (some "data:image/png;base64,AAA")]).app.status
      = AppStatus.loading ∧
    (run [Event.pasteEvent (some "data:image/png;base64,AAA"),
          Event.pasteEvent (some "data:image/jpeg;base64,BBB")]).inflight = 2 := by
  exact ⟨rfl, rfl⟩

/-- Claim C3 as amended: while the status is loading, the file-selection and
clipboard-read capture actions are ignored (the state is unchanged and no new
call starts), but the paste event is not guarded: a paste carrying an image
starts a new extraction call even while loading, so more than one call can be
in flight. -/
theorem loading_guard_amended (s : SysState) (imgF imgP : String) (c : ClipboardResult)
    (h : s.app.status = AppStatus.loading) :
    step s (Event.captureFile imgF) = s ∧
    step s (Event.captureClipboard c) = s ∧
    (step s (Event.pasteEvent (some imgP))).inflight = s.inflight + 1 ∧
    (step s (Event.pasteEvent (some imgP))).app.status = AppStatus.loading := by
  refine ⟨?_, ?_, rfl, rfl⟩
  · simp [step, handleFileSelect, h]
  · simp [step, handleClipboardAction, h]

/-- Witness for the amended claim C3 at the concrete loading state reached by
one paste. -/
theorem loading_guard_amended_witness :
    (run [Event.pasteEvent (some "data:image/png;base64,AAA")]).app.status
      = AppStatus.loading ∧
    step (run [Event.pasteEvent (some "data:image/png;base64,AAA")])
        (Event.captureFile "data:image/gif;base64,CCC")
      = run [Event.pasteEvent (some "data:image/png;base64,AAA")] ∧
    (step (run [Event.pasteEvent (some "data:image/png;base64,AAA")])
        (Event.pasteEvent (some "data:image/jpeg;base64,BBB"))).inflight
      = (run [Event.pasteEvent (some "data:image/png;base64,AAA")]).inflight + 1 := by
  refine ⟨rfl, ?_, ?_⟩
  · exact (loading_guard_amended _ "data:image/gif;base64,CCC" "data:image/jpeg;base64,BBB"
      ClipboardResult.noImage rfl).1
  · exact (loading_guard_amended _ "data:image/gif;base64,CCC" "data:image/jpeg;base64,BBB"
      ClipboardResult.noImage rfl).2.2.1

/-- Claim C7: when the adapter succeeds with an empty number list, the
continuation of processImage ends the attempt with status success (not error)
and sets the advisory no-numbers message; every adapter failure ends the
attempt with status error. -/
theorem empty_result_success_with_advisory (a : AppState) (data : ExtractionResponse)
    (msg : String) (h : data.numbers = []) :
    (processImageComplete a (Except.ok data)).status = AppStatus.success ∧
    (processImageComplete a (Except.ok data)).error = some noNumbersMsg ∧
    (processImageComplete a (Except.error msg)).status = AppStatus.error := by
  simp [processImageComplete, h]

/-- Witness for claim C7 at a concrete empty extraction result. -/
theorem empty_result_success_with_advisory_witness :
    (⟨[], none⟩ : ExtractionResponse).numbers = [] ∧
    ((processImageComplete ⟨AppStatus.loading, none, none, none, some "p"⟩
        (Except.ok ⟨[], none⟩)).status = AppStatus.success ∧
      (processImageComplete ⟨AppStatus.loading, none, none, none, some "p"⟩
        (Except.ok ⟨[], none⟩)).error = some noNumbersMsg ∧
      (processImageComplete ⟨AppStatus.loading, none, none, none, some "p"⟩
        (Except.error "boom")).status = AppStatus.error) := by
  exact ⟨rfl, empty_result_success_with_advisory
    ⟨AppStatus.loading, none, none, none, some "p"⟩ ⟨[], none⟩ "boom" rfl⟩

/-- Counterexample for claim C8: the copied marker is a single shared index,
so a copy action on one result changes the marker of another result: starting
from a state in which result 0 carries the marker, copying result 1 removes
the marker from result 0. -/
theorem copy_clears_other_marker :
    (⟨AppStatus.success,
      some ⟨[⟨"+15550100", "USA"⟩, ⟨"+33123456", "France"⟩], none⟩,
      none, some 0, some "data:image/png;base64,AAA"⟩ : AppState).copiedIndex = some 0 ∧
    (copyToClipboard
      ⟨AppStatus.success,
        some ⟨[⟨"+15550100", "USA"⟩, ⟨"+33123456", "France"⟩], none⟩,
        none, some 0, some "data:image/png;base64,AAA"⟩
      "+33123456" 1).1.copiedIndex ≠ some 0 := by
  constructor
  · rfl
  · simp [copyToClipboard]

/-- Claim C8 as amended: a copy action on result index i sets the single
shared copied marker to i (which clears the marker of any other result, as
the marker is one shared index), schedules the clearing timeout with the
fixed delay of 1000 milliseconds, leaves status, results, preview and error
unchanged, and the timeout callback clears the marker. -/
theorem copy_action_amended (a : AppState) (text : String) (i : Nat) :
    (copyToClipboard a text i).1.copiedIndex = some i ∧
    (copyToClipboard a text i).2 = 1000 ∧
    (copyToClipboard a text i).1.status = a.status ∧
    (copyToClipboard a text i).1.results = a.results ∧
    (copyToClipboard a text i).1.previewUrl = a.previewUrl ∧
    (copyToClipboard a text i).1.error = a.error ∧
    (copyTimerFire (copyToClipboard a text i).1).copiedIndex = none := by
  exact ⟨rfl, rfl, rfl, rfl, rfl, rfl, rfl⟩

/-! ## Claim about schema round-tripping (C9) -/

/-- Decoding inverts encoding on one entry. -/
theorem decodeEntry_encodeEntry (e : ExtractedNumber) :
    decodeEntry (encodeEntry e) = some e := rfl

/-- Decoding inverts encoding on a list of entries, keeping the order. -/
theorem decodeEntries_encode (ns : List ExtractedNumber) :
    decodeEntries (ns.map encodeEntry) = some ns := by
  induction ns with
  | nil => rfl
  | cons e es ih => simp [List.map, decodeEntries, decodeEntry_encodeEntry, ih]

/-- Claim C9: an ExtractionResponse with N entries, serialized to JSON under
the declared response schema and parsed back, yields an ExtractionResponse
with the same N entries in the original order (the schema does not carry the
summary property, so the decoded summary is absent). -/
theorem extraction_response_roundtrip (r : ExtractionResponse) :
    decodeResponse (encodeResponse r) = some ⟨r.numbers, none⟩ ∧
    (decodeResponse (encodeResponse r)).map ExtractionResponse.numbers = some r.numbers ∧
    (decodeResponse (encodeResponse r)).map (fun x => x.numbers.length)
      = some r.numbers.length := by
  have h0 : decodeResponse (encodeResponse r) =
      match decodeEntries (r.numbers.map encodeEntry) with
      | some es => some ⟨es, none⟩
      | none => none := rfl
  have h : decodeResponse (encodeResponse r) = some ⟨r.numbers, none⟩ := by
    rw [h0, decodeEntries_encode]
  exact ⟨h, by rw [h]; rfl, by rw [h]; rfl⟩

/-! ## Claim about MIME extraction (C6)

Helper lemmas about findMime, the model of the leftmost match of the
regular expression `data:([^;]+);`. -/

/-- A position where the input does not start with `data:` contributes no
match. -/
theorem matchMimeAt_none_of_not_prefixOf (cs : List Char)
    (h : dataUrlPrefix.isPrefixOf cs = false) : matchMimeAt cs = none := by
  simp [matchMimeAt, h]

/-- takeWhile collects exactly the leading block when every element of the
block satisfies the predicate and the next element does not. -/
theorem takeWhile_all_stop (p : Char → Bool) (xs : List Char) (y : Char) (ys : List Char)
    (hx : ∀ x ∈ xs, p x = true) (hy : p y = false) :
    List.takeWhile p (xs ++ y :: ys) = xs := by
  induction xs with
  | nil => simp [List.takeWhile, hy]
  | cons a l ih =>
    have ha := hx a (by simp)
    simp [List.takeWhile, ha]
    exact ih (fun x hx' => hx x (by simp [hx']))

/-- At a position starting with `data:`, the match succeeds and captures the
whole nonempty semicolon-free run when a semicolon follows it. -/
theorem matchMimeAt_data (mime rest : List Char) (hm : mime ≠ [])
    (hsemi : ∀ c ∈ mime, (c != ';') = true) :
    matchMimeAt (dataUrlPrefix ++ (mime ++ ';' :: rest)) = some mime := by
  have hpre : dataUrlPrefix.isPrefixOf (dataUrlPrefix ++ (mime ++ ';' :: rest)) = true :=
    List.isPrefixOf_iff_prefix.mpr ⟨mime ++ ';' :: rest, rfl⟩
  have hdrop5 : (dataUrlPrefix ++ (mime ++ ';' :: rest)).drop 5 = mime ++ ';' :: rest :=
    List.drop_left dataUrlPrefix (mime ++ ';' :: rest)
  have htw : (mime ++ ';' :: rest).takeWhile (fun c => c != ';') = mime :=
    takeWhile_all_stop _ mime ';' rest hsemi (by decide)
  have hdropRun : (mime ++ ';' :: rest).drop mime.length = ';' :: rest :=
    List.drop_left mime (';' :: rest)
  simp [matchMimeAt, hpre, hdrop5, htw, hdropRun, hm]

/-- Scanning skips a part of the input that contains no occurrence of `data`
when the remaining input starts with the character d. -/
theorem findMime_skip (pre : List Char) (tl : List Char)
    (hpre : containsSub dataWord pre = false) :
    findMime (pre ++ 'd' :: tl) = findMime ('d' :: tl) := by
  induction pre with
  | nil => rfl
  | cons c p ih =>
    have hor : (dataWord.isPrefixOf (c :: p) || containsSub dataWord p) = false := hpre
    have hnp : dataWord.isPrefixOf (c :: p) = false := (Bool.or_eq_false_iff.mp hor).1
    have hsub : containsSub dataWord p = false := (Bool.or_eq_false_iff.mp hor).2
    have hmm : matchMimeAt (c :: (p ++ 'd' :: tl)) = none := by
      apply matchMimeAt_none_of_not_prefixOf
      cases hb : dataUrlPrefix.isPrefixOf (c :: (p ++ 'd' :: tl)) with
      | false => rfl
      | true =>
        exfalso
        obtain ⟨t, ht⟩ := List.isPrefixOf_iff_prefix.mp hb
        have hc : 'd' = c := by
          have := congrArg (fun l => l.headI) ht
          simpa [dataUrlPrefix] using this
        have htail : 'a' :: 't' :: 'a' :: ':' :: t = p ++ 'd' :: tl := by
          have := congrArg (fun l => l.tail) ht
          simpa [dataUrlPrefix] using this
        cases p with
        | nil => simp at htail
        | cons a1 p =>
          cases p with
          | nil => simp at htail
          | cons a2 p =>
            cases p with
            | nil => simp at htail
            | cons a3 p =>
              cases p with
              | nil => simp at htail
              | cons a4 p =>
                simp at htail
                obtain ⟨h1, h2, h3, h4, -⟩ := htail
                subst h1
                subst h2
                subst h3
                subst h4
                subst hc
                simp [dataWord, List.isPrefixOf] at hnp
    show findMime (c :: (p ++ 'd' :: tl)) = findMime ('d' :: tl)
    rw [findMime, hmm]
    exact ih hsub

/-- When the input contains no occurrence of `data:` at all, there is no
match. -/
theorem findMime_none (cs : List Char) (h : containsSub dataUrlPrefix cs = false) :
    findMime cs = none := by
  induction cs with
  | nil => rfl
  | cons c t ih =>
    have hor : (dataUrlPrefix.isPrefixOf (c :: t) || containsSub dataUrlPrefix t) = false := h
    have h1 : dataUrlPrefix.isPrefixOf (c :: t) = false := (Bool.or_eq_false_iff.mp hor).1
    have h2 : containsSub dataUrlPrefix t = false := (Bool.or_eq_false_iff.mp hor).2
    rw [findMime, matchMimeAt_none_of_not_prefixOf _ h1]
    exact ih h2

/-- Counterexample for claim C6: the regular expression `data:([^;]+);` is not
anchored, so on an input where `data:` is not a prefix the adapter still
extracts the embedded MIME type instead of using the default; and on the input
whose prefix is `data:;` (empty content between `data:` and the semicolon) the
adapter uses the default instead of the empty string. -/
theorem mime_match_not_prefix_only :
    dataUrlPrefix.isPrefixOf "Xdata:text/html;x".data = false ∧
    getMimeType "Xdata:text/html;x" = "text/html" ∧
    getMimeType "data:;base64,AAA" = "image/png" ∧
    "text/html" ≠ "image/png" := by
  exact ⟨by decide, by decide, by decide, by decide⟩

/-- Claim C6 as amended: the MIME type used for the request is the capture of
the leftmost match of `data:([^;]+);` anywhere in the input (not only as a
prefix, and requiring at least one non-semicolon character between `data:` and
the semicolon); when the input contains no such occurrence at all, the
generic default image/png is used.  The first conjunct states the positive
case for an input decomposed as pre ++ data: ++ mime ++ ; ++ rest where pre
contains no occurrence of `data` (so the exhibited match is the leftmost);
the second states the default for inputs containing no `data:` occurrence;
the third states the default for an empty capture. -/
theorem mime_extraction_amended :
    (∀ pre mime rest : String,
        containsSub dataWord pre.data = false →
        mime.data ≠ [] →
        (∀ c ∈ mime.data, (c != ';') = true) →
        getMimeType (pre ++ "data:" ++ mime ++ ";" ++ rest) = mime) ∧
    (∀ s : String, containsSub dataUrlPrefix s.data = false →
        getMimeType s = "image/png") ∧
    getMimeType "data:;base64,AAA" = "image/png" := by
  refine ⟨?_, ?_, by decide⟩
  · intro pre mime rest hpre hm hsemi
    have hdata : (pre ++ "data:" ++ mime ++ ";" ++ rest).data
        = pre.data ++ 'd' :: ('a' :: 't' :: 'a' :: ':' :: (mime.data ++ ';' :: rest.data)) := by
      simp only [String.data_append, List.append_assoc]
      rfl
    unfold getMimeType
    rw [hdata, findMime_skip pre.data _ hpre]
    have hmatch : matchMimeAt ('d' :: 'a' :: 't' :: 'a' :: ':' :: (mime.data ++ ';' :: rest.data))
        = some mime.data :=
      matchMimeAt_data mime.data rest.data hm hsemi
    rw [findMime, hmatch]
  · intro s hs
    unfold getMimeType
    rw [findMime_none s.data hs]

/-- Witness for the amended claim C6 at a non-prefix position and a concrete
MIME type. -/
theorem mime_extraction_amended_witness :
    containsSub dataWord "x".data = false ∧
    getMimeType ("x" ++ "data:" ++ "image/jpeg" ++ ";" ++ "base64,AAA") = "image/jpeg" := by
  refine ⟨by decide, ?_⟩
  exact mime_extraction_amended.1 "x" "image/jpeg" "base64,AAA" (by decide) (by decide) (by decide)

end SnapExtract
